import Mathlib

/-!
Verification development for the ExperimentalServer HTTP/WebSocket server.

Byte streams are modelled as `List Nat` (each element a byte value 0..255),
Python `str` values as Lean `String`, Python dicts of strings as ordered
association lists (`List (String × String)`) with first-occurrence lookup and
in-place update, matching CPython's insertion-ordered dictionaries.

Sections:
  1. generic list helpers (substring search, splitting, trimming);
  2. UTF-8 encode/decode and Python `int()` parsing;
  3. `src/http/request.py`  — `HTTPRequest`;
  4. `src/http/response.py` — `HTTPResponse`;
  5. `src/server.py`        — keep-alive decision, wire frame reader,
                              dispatch tables, auth short-circuit, client loop;
  6. `src/websocket.py`     — upgrade check and frame parser;
  7. claim theorems.
-/

set_option autoImplicit false

namespace ExpServer

/-! ### 1. Generic list helpers -/

/-- `startsWithL l pat` is true iff `pat` is an initial segment of `l`. -/
def startsWithL {α : Type} [DecidableEq α] : List α → List α → Bool
  | _, [] => true
  | [], _ :: _ => false
  | x :: xs, y :: ys => if x = y then startsWithL xs ys else false

/-- Index of the first occurrence of `pat` inside `l` (Python `bytes.find` /
the `in` containment test). -/
def findPat {α : Type} [DecidableEq α] (pat : List α) : List α → Option Nat
  | [] => none
  | x :: xs =>
      if startsWithL (x :: xs) pat then some 0
      else (findPat pat xs).map (· + 1)

/-- Python `haystack.find(needle) != -1` / `needle in haystack`. -/
def listHasSub {α : Type} [DecidableEq α] (pat l : List α) : Bool :=
  (findPat pat l).isSome

/-- Split `l` at the first occurrence of `sep` (Python `split(sep, 1)` when
`sep` occurs); `none` when `sep` does not occur. -/
def splitFirstSub {α : Type} [DecidableEq α] (sep : List α) : List α → Option (List α × List α)
  | [] => none
  | x :: xs =>
      if startsWithL (x :: xs) sep then some ([], List.drop sep.length (x :: xs))
      else (splitFirstSub sep xs).map (fun p => (x :: p.1, p.2))

/-- Fuelled worker for `splitOnSub`: the fuel only serves to make the
recursion structural (each step strictly shrinks the list, so fuel equal to
the list length is always enough). -/
def splitOnSubF {α : Type} [DecidableEq α] (sep : List α) : Nat → List α → List (List α)
  | _, [] => [[]]
  | 0, l => [l]
  | fuel + 1, x :: xs =>
      if startsWithL (x :: xs) sep then
        [] :: splitOnSubF sep fuel (List.drop (sep.length - 1) xs)
      else
        match splitOnSubF sep fuel xs with
        | [] => [[x]]
        | t :: ts => (x :: t) :: ts

/-- Split `l` on every (leftmost, non-overlapping) occurrence of `sep`
(Python `str.split(sep)` for a non-empty separator). -/
def splitOnSub {α : Type} [DecidableEq α] (sep : List α) (l : List α) : List (List α) :=
  splitOnSubF sep l.length l

/-- First-occurrence lookup in an ordered association list
(Python `dict.get`). -/
def lookupA {κ : Type} {β : Type} [DecidableEq κ] : List (κ × β) → κ → Option β
  | [], _ => none
  | (k', v) :: t, k => if k' = k then some v else lookupA t k

/-- In-place update of an ordered association list: replace the value of the
first entry with the given key, keeping its position, otherwise append
(Python `dict[k] = v` on an insertion-ordered dict). -/
def dictSet {κ : Type} {β : Type} [DecidableEq κ] : List (κ × β) → κ → β → List (κ × β)
  | [], k, v => [(k, v)]
  | (k', v') :: t, k, v => if k' = k then (k, v) :: t else (k', v') :: dictSet t k v

/-! ### 2. Characters, UTF-8, Python `int()` -/

/-- ASCII lowercasing of one character (Python `str.lower` restricted to
ASCII; the header tokens compared in the server are all ASCII). -/
def lowerCh (c : Char) : Char :=
  if 'A' ≤ c ∧ c ≤ 'Z' then Char.ofNat (c.toNat + 32) else c

/-- ASCII lowercasing of a string. -/
def asciiLower (s : String) : String := String.mk (s.data.map lowerCh)

/-- ASCII lowercasing of one byte. -/
def lowerB (b : Nat) : Nat := if 65 ≤ b ∧ b ≤ 90 then b + 32 else b

/-- Whitespace characters stripped by Python `str.strip()` (ASCII subset). -/
def isWsCh (c : Char) : Bool :=
  c = ' ' || c = '\t' || c = '\n' || c = '\r' || c.toNat = 11 || c.toNat = 12

/-- Whitespace bytes (ASCII subset of what `bytes.strip` / `int()` strip). -/
def isWsB (b : Nat) : Bool :=
  b = 32 || b = 9 || b = 10 || b = 13 || b = 11 || b = 12

/-- Python `str.strip()` on a character list. -/
def trimCharsL (l : List Char) : List Char :=
  ((l.dropWhile isWsCh).reverse.dropWhile isWsCh).reverse

/-- Strip whitespace bytes from both ends. -/
def trimBytes (l : List Nat) : List Nat :=
  ((l.dropWhile isWsB).reverse.dropWhile isWsB).reverse

/-- Is `b` a UTF-8 continuation byte (`0x80..0xBF`)? -/
def utf8Cont (b : Nat) : Bool := 128 ≤ b && b < 192

/-- Strict UTF-8 decoding to a list of scalar values encoded as `Char`s,
rejecting malformed input, overlong encodings, surrogates and values above
`0x10FFFF` (Python `bytes.decode("utf-8")`, which raises on these). -/
def utf8Decode : List Nat → Option (List Char)
  | [] => some []
  | b :: rest =>
      if b < 128 then (utf8Decode rest).map (Char.ofNat b :: ·)
      else if b < 194 then none
      else if b < 224 then
        match rest with
        | c1 :: r =>
            if utf8Cont c1 then
              (utf8Decode r).map (Char.ofNat ((b - 192) * 64 + (c1 - 128)) :: ·)
            else none
        | [] => none
      else if b < 240 then
        match rest with
        | c1 :: c2 :: r =>
            if utf8Cont c1 && utf8Cont c2 then
              let v := (b - 224) * 4096 + (c1 - 128) * 64 + (c2 - 128)
              if v < 2048 ∨ (55296 ≤ v ∧ v < 57344) then none
              else (utf8Decode r).map (Char.ofNat v :: ·)
            else none
        | _ => none
      else if b < 245 then
        match rest with
        | c1 :: c2 :: c3 :: r =>
            if utf8Cont c1 && utf8Cont c2 && utf8Cont c3 then
              let v := (b - 240) * 262144 + (c1 - 128) * 4096 +
                       (c2 - 128) * 64 + (c3 - 128)
              if v < 65536 ∨ 1114112 ≤ v then none
              else (utf8Decode r).map (Char.ofNat v :: ·)
            else none
        | _ => none
      else none

/-- UTF-8 decoding with replacement (Python `errors="replace"`): an invalid
byte yields U+FFFD and decoding resumes at the next byte.  (Python groups a
maximal invalid subpart into one U+FFFD; the difference only affects how many
replacement characters appear, which no claim depends on.) -/
def utf8DecodeReplace : List Nat → List Char
  | [] => []
  | b :: rest =>
      if b < 128 then Char.ofNat b :: utf8DecodeReplace rest
      else if b < 194 then Char.ofNat 65533 :: utf8DecodeReplace rest
      else if b < 224 then
        match rest with
        | c1 :: r =>
            if utf8Cont c1 then
              Char.ofNat ((b - 192) * 64 + (c1 - 128)) :: utf8DecodeReplace r
            else Char.ofNat 65533 :: utf8DecodeReplace (c1 :: r)
        | [] => [Char.ofNat 65533]
      else if b < 240 then
        match rest with
        | c1 :: c2 :: r =>
            if utf8Cont c1 && utf8Cont c2 then
              let v := (b - 224) * 4096 + (c1 - 128) * 64 + (c2 - 128)
              if v < 2048 ∨ (55296 ≤ v ∧ v < 57344) then
                Char.ofNat 65533 :: utf8DecodeReplace (c1 :: c2 :: r)
              else Char.ofNat v :: utf8DecodeReplace r
            else Char.ofNat 65533 :: utf8DecodeReplace (c1 :: c2 :: r)
        | [c1] => Char.ofNat 65533 :: utf8DecodeReplace [c1]
        | [] => [Char.ofNat 65533]
      else if b < 245 then
        match rest with
        | c1 :: c2 :: c3 :: r =>
            if utf8Cont c1 && utf8Cont c2 && utf8Cont c3 then
              let v := (b - 240) * 262144 + (c1 - 128) * 4096 +
                       (c2 - 128) * 64 + (c3 - 128)
              if v < 65536 ∨ 1114112 ≤ v then
                Char.ofNat 65533 :: utf8DecodeReplace (c1 :: c2 :: c3 :: r)
              else Char.ofNat v :: utf8DecodeReplace r
            else Char.ofNat 65533 :: utf8DecodeReplace (c1 :: c2 :: c3 :: r)
        | [c1, c2] => Char.ofNat 65533 :: utf8DecodeReplace [c1, c2]
        | [c1] => Char.ofNat 65533 :: utf8DecodeReplace [c1]
        | [] => [Char.ofNat 65533]
      else Char.ofNat 65533 :: utf8DecodeReplace rest

/-- UTF-8 encoding of one scalar value. -/
def utf8EncodeCh (c : Nat) : List Nat :=
  if c < 128 then [c]
  else if c < 2048 then [192 + c / 64, 128 + c % 64]
  else if c < 65536 then [224 + c / 4096, 128 + c / 64 % 64, 128 + c % 64]
  else [240 + c / 262144, 128 + c / 4096 % 64, 128 + c / 64 % 64, 128 + c % 64]

/-- UTF-8 encoding of a string (Python `str.encode("utf-8")`). -/
def strBytes (s : String) : List Nat :=
  s.data.foldr (fun c acc => utf8EncodeCh c.toNat ++ acc) []

/-- Is `b` an ASCII digit byte? -/
def isDigitB (b : Nat) : Bool := 48 ≤ b && b ≤ 57

/-- Continue parsing the digits of a Python integer literal: ASCII digits
with single underscores allowed between digits. -/
def pyDigitsGo (acc : Nat) : List Nat → Option Nat
  | [] => some acc
  | 95 :: c :: rest =>
      if isDigitB c then pyDigitsGo (acc * 10 + (c - 48)) rest else none
  | [95] => none
  | c :: rest =>
      if isDigitB c then pyDigitsGo (acc * 10 + (c - 48)) rest else none

/-- Parse a non-empty run of decimal digits (with Python's underscore
grouping) to a `Nat`. -/
def pyDigits : List Nat → Option Nat
  | [] => none
  | c :: rest => if isDigitB c then pyDigitsGo (c - 48) rest else none

/-- Python `int(s)` on a byte string: strip whitespace, optional sign, decimal
digits; `none` models a raised `ValueError`.  (Non-ASCII digit forms are not
modelled; the server only ever feeds header bytes to `int`.) -/
def pyParseIntB (l : List Nat) : Option Int :=
  match trimBytes l with
  | 43 :: rest => (pyDigits rest).map Int.ofNat
  | 45 :: rest => (pyDigits rest).map (fun n => -(n : Int))
  | rest => (pyDigits rest).map Int.ofNat

/-- Python `int(s)` on a string. -/
def pyParseIntS (s : String) : Option Int :=
  pyParseIntB (s.data.map Char.toNat)

/-! ### 3. `src/http/request.py` — `HTTPRequest` -/

/-- The header/body boundary `b"\r\n\r\n"`. -/
def crlfcrlf : List Nat := [13, 10, 13, 10]

/-- Value of a hex digit character. -/
def hexVal (c : Char) : Nat :=
  if c.isDigit then c.toNat - 48
  else if 'a' ≤ c ∧ c ≤ 'f' then c.toNat - 87
  else if 'A' ≤ c ∧ c ≤ 'F' then c.toNat - 55
  else 0

/-- One step of percent-decoding: classify each position as a literal
character or a decoded byte.  A `%` not followed by two hex digits stays
literal, as in `urllib.parse.unquote`. -/
def percentScan : List Char → List (Sum Char Nat)
  | '%' :: h1 :: h2 :: rest =>
      if h1.isDigit ∨ ('a' ≤ h1 ∧ h1 ≤ 'f') ∨ ('A' ≤ h1 ∧ h1 ≤ 'F') then
        if h2.isDigit ∨ ('a' ≤ h2 ∧ h2 ≤ 'f') ∨ ('A' ≤ h2 ∧ h2 ≤ 'F') then
          Sum.inr (hexVal h1 * 16 + hexVal h2) :: percentScan rest
        else Sum.inl '%' :: percentScan (h1 :: h2 :: rest)
      else Sum.inl '%' :: percentScan (h1 :: h2 :: rest)
  | c :: rest => Sum.inl c :: percentScan rest
  | [] => []

/-- Reassemble a percent-scanned list: maximal runs of decoded bytes are
UTF-8 decoded with replacement, literal characters pass through
(`urllib.parse.unquote` with the default `errors="replace"`). -/
def unquoteAssemble (run : List Nat) : List (Sum Char Nat) → List Char
  | [] => utf8DecodeReplace run.reverse
  | Sum.inl c :: rest => utf8DecodeReplace run.reverse ++ (c :: unquoteAssemble [] rest)
  | Sum.inr b :: rest => unquoteAssemble (b :: run) rest

/-- `urllib.parse.unquote`. -/
def pyUnquote (l : List Char) : List Char := unquoteAssemble [] (percentScan l)

/-- `urllib.parse.unquote_plus` (used by `parse_qs`): `+` becomes a space,
then percent decoding. -/
def pyUnquotePlus (l : List Char) : List Char :=
  pyUnquote (l.map fun c => if c = '+' then ' ' else c)

/-- `urllib.parse.urlparse` restricted to the origin-form request targets the
server receives: drop a `#fragment`, then split at the first `?` into path
and query string.  (Scheme / netloc / `;params` handling of the stdlib
function is not exercised by origin-form targets and is not modelled.) -/
def urlsplitModel (u : List Char) : List Char × List Char :=
  let noFrag := match splitFirstSub ['#'] u with
    | some p => p.1
    | none => u
  match splitFirstSub ['?'] noFrag with
  | some p => p
  | none => (noFrag, [])

/-- `urllib.parse.parse_qs` with default arguments: split the query on `&`,
keep only `key=value` pairs with a non-empty value, URL-decode both sides. -/
def parseQSPairs (q : List Char) : List (String × String) :=
  (splitOnSub ['&'] q).filterMap fun seg =>
    match splitFirstSub ['='] seg with
    | none => none
    | some (k, v) =>
        if v = [] then none
        else some (String.mk (pyUnquotePlus k), String.mk (pyUnquotePlus v))

/-- `{k: v[-1] for k, v in parse_qs(query).items()}`: single-value query
parameters, last value wins, keys ordered by first occurrence. -/
def parseQS (q : List Char) : List (String × String) :=
  (parseQSPairs q).foldl (fun acc p => dictSet acc p.1 p.2) []

/-- Header-line parsing: each line containing a `:` is split at the first
one; the key is lowercased (not stripped), the value stripped; later
occurrences of a key overwrite earlier ones. -/
def parseHeaderLines (ls : List (List Char)) : List (String × String) :=
  ls.foldl
    (fun hs line =>
      match splitFirstSub [':'] line with
      | none => hs
      | some (k, v) =>
          dictSet hs (String.mk (k.map lowerCh)) (String.mk (trimCharsL v)))
    []

/-- The parsed-request value (`HTTPRequest` fields after `__init__`). -/
structure HTTPRequest where
  method : String
  path : String
  query_params : List (String × String)
  http_version : String
  headers : List (String × String)
  body : List Nat
  deriving DecidableEq, Repr

/-- `HTTPRequest._parse`: split the raw bytes at the first `\r\n\r\n` into a
header block and body, decode the header block as UTF-8 (a decode failure is
caught by the surrounding `except`, so the fields assigned before the failing
statement — only the body — keep their values), parse the request line and
the header lines.  Total function: the `try/except` in the source means
construction never raises. -/
def parseHTTPRequest (raw : List Nat) : HTTPRequest :=
  let split := splitFirstSub crlfcrlf raw
  let header_part := match split with | some p => p.1 | none => raw
  let body := match split with | some p => p.2 | none => []
  match utf8Decode header_part with
  | none => ⟨"", "", [], "", [], body⟩
  | some chars =>
      let lines := splitOnSub ['\r', '\n'] chars
      let firstLine := lines.headD []
      let parts := splitOnSub [' '] firstLine
      let headers := parseHeaderLines (lines.drop 1)
      if 3 ≤ parts.length then
        let rawUrl := parts.getD 1 []
        let pq := urlsplitModel rawUrl
        ⟨String.mk (parts.getD 0 []), String.mk (pyUnquote pq.1), parseQS pq.2,
         String.mk (parts.getD 2 []), headers, body⟩
      else ⟨"", "", [], "", headers, body⟩

/-- `HTTPRequest.content_length`: `int` of the `content-length` header, `0`
when the header is absent or `int` raises. -/
def contentLengthOf (hs : List (String × String)) : Int :=
  match lookupA hs "content-length" with
  | none => 0
  | some v => (pyParseIntS v).getD 0

/-! ### 4. `src/http/response.py` — `HTTPResponse` -/

/-- `src/config.py` `__version__`. -/
def configVersion : String := "2.0.0"

/-- `src/config.py` `HTTP_STATUS_MESSAGES.get(code, "Unknown")`. -/
def httpStatusMessage (code : Nat) : String :=
  if code = 200 then "OK"
  else if code = 201 then "Created"
  else if code = 204 then "No Content"
  else if code = 400 then "Bad Request"
  else if code = 401 then "Unauthorized"
  else if code = 403 then "Forbidden"
  else if code = 404 then "Not Found"
  else if code = 405 then "Method Not Allowed"
  else if code = 413 then "Payload Too Large"
  else if code = 500 then "Internal Server Error"
  else "Unknown"

/-- The mutable response value: status, insertion-ordered headers, in-memory
body, optional stream reference (`stream_path`, kept as the path string). -/
structure HTTPResponse where
  status_code : Nat
  headers : List (String × String)
  body : List Nat
  stream_path : Option String
  deriving DecidableEq, Repr

/-- `HTTPResponse.__init__(status_code)`. -/
def HTTPResponse.init (code : Nat) : HTTPResponse := ⟨code, [], [], none⟩

/-- `HTTPResponse.set_header`. -/
def HTTPResponse.set_header (r : HTTPResponse) (k v : String) : HTTPResponse :=
  { r with headers := dictSet r.headers k v }

/-- `HTTPResponse.set_body(body, content_type)` with a `str` body: encode to
UTF-8, then set `Content-Type` and `Content-Length`. -/
def HTTPResponse.set_body (r : HTTPResponse) (s : String) (ct : String) : HTTPResponse :=
  let b := strBytes s
  (({ r with body := b }).set_header "Content-Type" ct).set_header
    "Content-Length" (toString b.length)

/-- `HTTPResponse._set_cors_headers`: the four CORS headers are set only when
not already present; the expose header is additionally omitted in OPSEC
mode. -/
def setCorsHeaders (hs : List (String × String)) (opsec : Bool) (cors : String) :
    List (String × String) :=
  let hs := if (lookupA hs "Access-Control-Allow-Origin").isNone then
      dictSet hs "Access-Control-Allow-Origin" cors
    else hs
  let hs := if (lookupA hs "Access-Control-Allow-Methods").isNone then
      dictSet hs "Access-Control-Allow-Methods"
        (if opsec then "GET, POST, PUT, PATCH, OPTIONS"
         else "GET, POST, PUT, PATCH, FETCH, INFO, PING, NONE, NOTE, OPTIONS")
    else hs
  let hs := if (lookupA hs "Access-Control-Allow-Headers").isNone then
      dictSet hs "Access-Control-Allow-Headers" "Content-Type, X-File-Name, X-Session-Id"
    else hs
  if (lookupA hs "Access-Control-Expose-Headers").isNone ∧ opsec = false then
    dictSet hs "Access-Control-Expose-Headers"
      ("X-File-Name, X-File-Size, X-File-Path, " ++
       "X-Upload-Status, X-Fetch-Status, X-Ping-Response")
  else hs

/-- `HTTPResponse._finalize_headers`: unconditionally overwrite `Server`,
`Date` and `Connection` (plus `Keep-Alive` when keep-alive), then apply the
guarded CORS headers.  `dateStr` stands for the formatted current time. -/
def finalizeHeaders (hs : List (String × String)) (opsec : Bool) (cors : String)
    (keepAlive : Bool) (kaTimeout kaMax : Nat) (dateStr : String) :
    List (String × String) :=
  let hs := dictSet hs "Server"
    (if opsec then "nginx" else "ExperimentalHTTPServer/" ++ configVersion)
  let hs := dictSet hs "Date" dateStr
  let hs :=
    if keepAlive then
      dictSet (dictSet hs "Connection" "keep-alive") "Keep-Alive"
        ("timeout=" ++ toString kaTimeout ++ ", max=" ++ toString kaMax)
    else dictSet hs "Connection" "close"
  setCorsHeaders hs opsec cors

/-- `HTTPResponse.build_headers` as the list of header-block lines: status
line followed by one `key: value` line per header (the serialized block is
these lines joined with `\r\n` plus a trailing blank line). -/
def buildHeaderLines (r : HTTPResponse) (opsec : Bool) (cors : String)
    (keepAlive : Bool) (kaTimeout kaMax : Nat) (dateStr : String) : List String :=
  let hs := finalizeHeaders r.headers opsec cors keepAlive kaTimeout kaMax dateStr
  ("HTTP/1.1 " ++ toString r.status_code ++ " " ++ httpStatusMessage r.status_code) ::
    hs.map (fun p => p.1 ++ ": " ++ p.2)

/-- `HTTPResponse.build`: header block plus the in-memory body. -/
def buildResponse (r : HTTPResponse) (opsec : Bool) (cors : String)
    (keepAlive : Bool) (kaTimeout kaMax : Nat) (dateStr : String) : List Nat :=
  ((buildHeaderLines r opsec cors keepAlive kaTimeout kaMax dateStr).foldr
    (fun line acc => strBytes line ++ strBytes "\r\n" ++ acc) (strBytes "\r\n")) ++ r.body

/-! ### 5. `src/server.py` -/

/-- `ExperimentalHTTPServer._should_keep_alive` (lines 442-455). -/
def shouldKeepAlive (opsec_mode : Bool) (req : HTTPRequest) : Bool :=
  if opsec_mode then false
  else
    let conn := asciiLower ((lookupA req.headers "connection").getD "")
    if conn == "close" then false
    else if req.http_version == "HTTP/1.1" then conn != "close"
    else conn == "keep-alive"

/-- The `content-length` extraction of `_receive_request` (lines 719-725):
first header line whose lowercased form starts with `content-length:`; value
is the text between the first and second colon; `int` failure gives `0`. -/
def extractCLLines : List (List Nat) → Int
  | [] => 0
  | line :: rest =>
      if startsWithL (line.map lowerB) (strBytes "content-length:") then
        (pyParseIntB ((splitOnSub [58] line).getD 1 [])).getD 0
      else extractCLLines rest

/-- `content-length` scan over a raw header block. -/
def extractCL (headerBytes : List Nat) : Int :=
  extractCLLines (splitOnSub [13, 10] headerBytes)

/-- The receive loop of `_receive_request` (lines 685-747), with the incoming
bytes modelled as the list of chunks successive `recv` calls return; an empty
chunk is a peer close, an exhausted list is a timed-out `recv`.  State:
accumulated bytes, whether the header boundary was found, the parsed
`content_length`, and `header_end_pos`.  Wall-clock budgets are not modelled;
the exhausted-list case returns what the corresponding timeout path returns
(accumulated bytes during the header phase, nothing during the body phase). -/
def recvLoop (cap : Nat) (acc : List Nat) (hdr : Bool) (cl : Int) (hpos : Nat) :
    List (List Nat) → List Nat
  | [] => if hdr then [] else acc
  | c :: cs =>
      if c = [] then acc
      else
        let acc2 := acc ++ c
        if cap < acc2.length then []
        else if hdr then
          if cl ≤ ((acc2.length - hpos - 4 : Nat) : Int) then acc2
          else recvLoop cap acc2 true cl hpos cs
        else
          match findPat crlfcrlf acc2 with
          | none => recvLoop cap acc2 false cl hpos cs
          | some p =>
              let cl2 := extractCL (acc2.take p)
              if cl2 ≤ ((acc2.length - p - 4 : Nat) : Int) then acc2
              else recvLoop cap acc2 true cl2 p cs

/-- `_receive_request` over a chunk stream: the size cap is
`max_upload_size + 65536`. -/
def receiveRequest (max_upload_size : Nat) (chunks : List (List Nat)) : List Nat :=
  recvLoop (max_upload_size + 65536) [] false 0 0 chunks

/-- The handler callables a method can resolve to. -/
inductive Handler where
  | hGet | hPost | hPatch | hOptions | hFetch | hInfo | hPing | hNone
  | hNote | hSmuggle | hOpsecUpload
  deriving DecidableEq, Repr

/-- `self.method_handlers` (lines 175-187): the fixed dispatch table, in
source order; `PUT` and `NONE` share `handle_none`. -/
def methodHandlers : List (String × Handler) :=
  [("GET", .hGet), ("POST", .hPost), ("PUT", .hNone), ("PATCH", .hPatch),
   ("OPTIONS", .hOptions), ("FETCH", .hFetch), ("INFO", .hInfo),
   ("PING", .hPing), ("NONE", .hNone), ("NOTE", .hNote), ("SMUGGLE", .hSmuggle)]

/-- The per-process decoy method-name map (`self.opsec_methods`). -/
structure OpsecMethods where
  upload : String
  download : String
  info : String
  ping : String
  notepad : String
  deriving DecidableEq, Repr

/-- `src/config.py` `OPSEC_METHOD_PREFIXES`. -/
def opsecMethodHeads : List String :=
  ["CHECK", "SYNC", "VERIFY", "UPDATE", "QUERY",
   "REPORT", "SUBMIT", "VALIDATE", "PROCESS", "EXECUTE"]

/-- `src/config.py` `OPSEC_METHOD_SUFFIXES` (the last entry is empty). -/
def opsecMethodTails : List String :=
  ["DATA", "STATUS", "INFO", "CONTENT", "RESOURCE",
   "ITEM", "OBJECT", "RECORD", "ENTRY", ""]

/-- `_random_method_name` at a given draw: `secrets.choice` picks one entry
from each word list; the two random picks are the `(p, s)` index pair.
`f"{p}{s}" if s else p` is concatenation in both cases. -/
def randomMethodName (p s : Nat) : String :=
  (opsecMethodHeads.getD p "") ++ (opsecMethodTails.getD s "")

/-- `_generate_opsec_methods` at given draws: five independent calls to
`_random_method_name`. -/
def generateOpsecMethods (dU dD dI dP dN : Nat × Nat) : OpsecMethods :=
  ⟨randomMethodName dU.1 dU.2, randomMethodName dD.1 dD.2,
   randomMethodName dI.1 dI.2, randomMethodName dP.1 dP.2,
   randomMethodName dN.1 dN.2⟩

/-- `_get_opsec_handler` (lines 749-772): standard tokens first, then the
five decoy tokens in fixed order, then the implicit-upload fallback for a
non-empty body, else `None`. -/
def getOpsecHandler (om : OpsecMethods) (method : String) (body : List Nat) :
    Option Handler :=
  match lookupA methodHandlers method with
  | some h => some h
  | none =>
      if method = om.upload then some .hOpsecUpload
      else if method = om.download then some .hFetch
      else if method = om.info then some .hInfo
      else if method = om.ping then some .hPing
      else if method = om.notepad then some .hNote
      else if body = [] then none
      else some .hOpsecUpload

/-- The bare 404 the OPSEC driver sends when no handler resolves
(`_process_request` lines 595-600). -/
def opsecNotFoundResponse : HTTPResponse :=
  (HTTPResponse.init 404).set_body
    "\x7b\"error\": \"Not Found\", \"status\": 404\x7d" "application/json"

/-- The OPSEC branch of dispatch in `_process_request` (lines 582-600):
either a resolved handler or the bare 404 response. -/
def opsecDispatch (om : OpsecMethods) (method : String) (body : List Nat) :
    Sum HTTPResponse Handler :=
  match getOpsecHandler om method body with
  | some h => Sum.inr h
  | none => Sum.inl opsecNotFoundResponse

/-- The 429 response of the rate-limit branch (lines 529-534). -/
def resp429 : HTTPResponse :=
  (HTTPResponse.init 429).set_body
    "\x7b\"error\": \"Too Many Requests\", \"status\": 429\x7d" "application/json"

/-- The 401 response of the auth-reject branch (lines 542-550); `wwwAuth` is
the authenticator's challenge header value. -/
def resp401 (wwwAuth : String) : HTTPResponse :=
  (((HTTPResponse.init 401).set_header "WWW-Authenticate" wwwAuth).set_body
    "\x7b\"error\": \"Unauthorized\", \"status\": 401\x7d" "application/json")

/-- The Basic-Auth short-circuit of `_process_request` (lines 524-556): when
an authenticator is configured, a blocked peer gets the 429 and an
unauthenticated request the 401, and in both branches the function returns
`False`.  Result: `some (response, returnValue)` when short-circuiting. -/
def authOutcome (authEnabled blocked authOk : Bool) (wwwAuth : String) :
    Option (HTTPResponse × Bool) :=
  if authEnabled then
    if blocked then some (resp429, false)
    else if authOk then none
    else some (resp401 wwwAuth, false)
  else none

/-- The keep-alive loop of `_handle_client` (lines 472-489), counting how
many requests get processed: an empty receive breaks before processing; a
`False` return from `_process_request` breaks after it. -/
def handleClientCount (process : List Nat → Nat → Bool) :
    List (List Nat) → Nat → Nat
  | [], _ => 0
  | d :: rest, n =>
      if d = [] then 0
      else if process d (n + 1) then 1 + handleClientCount process rest (n + 1)
      else 1

/-- The streaming branch of `_process_request` (lines 607-611): the header
block is built from `_bld` with `keep_alive` overridden to `False`. -/
def streamHeaderLines (r : HTTPResponse) (opsec : Bool) (cors : String)
    (keepAlive : Bool) (kaTimeout kaMax : Nat) (dateStr : String) : List String :=
  buildHeaderLines r opsec cors false kaTimeout kaMax dateStr

/-! ### 6. `src/websocket.py` -/

/-- `check_websocket_upgrade` (lines 26-31): note the `Connection` test is a
substring containment (`"upgrade" in connection`), not a token-list check. -/
def checkWebsocketUpgrade (req : HTTPRequest) : Bool :=
  let upgradeH := asciiLower ((lookupA req.headers "upgrade").getD "")
  let connH := asciiLower ((lookupA req.headers "connection").getD "")
  let wsKey := (lookupA req.headers "sec-websocket-key").getD ""
  upgradeH == "websocket" && listHasSub "upgrade".data connH.data && wsKey.length > 0

/-- Big-endian integer of a byte list (`struct.unpack("!H"/"!Q", ...)`). -/
def beFold (l : List Nat) : Nat := l.foldl (fun a b => a * 256 + b) 0

/-- Unmasking: XOR payload byte `i` with `mask_key[i % 4]`. -/
def wsUnmask (maskKey : List Nat) : Nat → List Nat → List Nat
  | _, [] => []
  | i, b :: bs => (b ^^^ maskKey.getD (i % 4) 0) :: wsUnmask maskKey (i + 1) bs

/-- The tail of `parse_ws_frame` after the payload length and its offset are
known (lines 87-107): mask key, completeness check, unmasking. -/
def parseWsRest (data : List Nat) (opcode : Nat) (masked : Bool)
    (plen off : Nat) : Option (Nat × List Nat × Nat) :=
  if masked then
    if data.length < off + 4 then none
    else
      let maskKey := (data.drop off).take 4
      if data.length < off + 4 + plen then none
      else some (opcode, wsUnmask maskKey 0 ((data.drop (off + 4)).take plen),
                 off + 4 + plen)
  else
    if data.length < off + plen then none
    else some (opcode, (data.drop off).take plen, off + plen)

/-- `parse_ws_frame` (lines 55-107). -/
def parseWsFrame (data : List Nat) : Option (Nat × List Nat × Nat) :=
  if data.length < 2 then none
  else
    let opcode := data.getD 0 0 &&& 15
    let b1 := data.getD 1 0
    let masked := (b1 &&& 128) != 0
    let pl0 := b1 &&& 127
    if pl0 = 126 then
      if data.length < 4 then none
      else parseWsRest data opcode masked (beFold ((data.drop 2).take 2)) 4
    else if pl0 = 127 then
      if data.length < 10 then none
      else parseWsRest data opcode masked (beFold ((data.drop 2).take 8)) 10
    else parseWsRest data opcode masked pl0 2

/-- The frame layout described by the specification: the 2-byte base header,
a 16- or 64-bit extended length when the 7-bit field reads 126 or 127, a
4-byte mask key when the mask bit is set, and all declared payload bytes must
be present; only then is the frame parsed, with `consumed` the total length
and a masked payload XORed with `maskKey[i mod 4]`. -/
def wsFrameSpec (data : List Nat) : Option (Nat × List Nat × Nat) :=
  if data.length < 2 then none
  else
    let b1 := data.getD 1 0
    let masked := (b1 &&& 128) != 0
    let pl0 := b1 &&& 127
    let extBytes := if pl0 = 126 then 2 else if pl0 = 127 then 8 else 0
    if data.length < 2 + extBytes then none
    else
      let plen := if pl0 = 126 ∨ pl0 = 127 then beFold ((data.drop 2).take extBytes)
                  else pl0
      let maskBytes := if masked then 4 else 0
      let total := 2 + extBytes + maskBytes + plen
      if data.length < total then none
      else
        let raw := (data.drop (2 + extBytes + maskBytes)).take plen
        let payload := if masked then
            wsUnmask ((data.drop (2 + extBytes)).take 4) 0 raw
          else raw
        some (data.getD 0 0 &&& 15, payload, total)

/-! ### 7. Association-list lemmas -/

theorem lookupA_dictSet_self {κ β : Type} [DecidableEq κ]
    (l : List (κ × β)) (k : κ) (v : β) :
    lookupA (dictSet l k v) k = some v := by
  induction l with
  | nil => simp [dictSet, lookupA]
  | cons hd tl ih =>
      obtain ⟨k', v'⟩ := hd
      by_cases h : k' = k <;> simp [dictSet, lookupA, h, ih]

theorem lookupA_dictSet_ne {κ β : Type} [DecidableEq κ]
    {k' k : κ} (l : List (κ × β)) (v : β) (h : k' ≠ k) :
    lookupA (dictSet l k' v) k = lookupA l k := by
  induction l with
  | nil => simp [dictSet, lookupA, h]
  | cons hd tl ih =>
      obtain ⟨a, b⟩ := hd
      by_cases ha : a = k' <;> simp [dictSet, lookupA, ha, h, ih]

theorem mem_dictSet_self {κ β : Type} [DecidableEq κ]
    (l : List (κ × β)) (k : κ) (v : β) :
    (k, v) ∈ dictSet l k v := by
  induction l with
  | nil => simp [dictSet]
  | cons hd tl ih =>
      obtain ⟨a, b⟩ := hd
      by_cases ha : a = k <;> simp [dictSet, ha, ih]

theorem mem_dictSet_ne {κ β : Type} [DecidableEq κ]
    {a k : κ} {b : β} {l : List (κ × β)} (v : β)
    (hmem : (a, b) ∈ l) (hne : a ≠ k) :
    (a, b) ∈ dictSet l k v := by
  induction l with
  | nil => simp at hmem
  | cons hd tl ih =>
      obtain ⟨x, y⟩ := hd
      by_cases hx : x = k
      · subst hx
        rcases List.mem_cons.mp hmem with heq | htl
        · exact absurd (congrArg Prod.fst heq) (by simpa using hne)
        · simp [dictSet, htl]
      · rcases List.mem_cons.mp hmem with heq | htl
        · simp [dictSet, hx, heq]
        · simp [dictSet, hx, ih htl]

theorem lookupA_condSet_ne {κ β : Type} [DecidableEq κ] {k' k : κ}
    (c : Prop) [Decidable c] (l : List (κ × β)) (v : β) (h : k' ≠ k) :
    lookupA (if c then dictSet l k' v else l) k = lookupA l k := by
  split_ifs
  · exact lookupA_dictSet_ne l v h
  · rfl

theorem mem_condSet_ne {κ β : Type} [DecidableEq κ] {a k : κ} {b : β}
    (c : Prop) [Decidable c] (l : List (κ × β)) (v : β)
    (hmem : (a, b) ∈ l) (hne : a ≠ k) :
    (a, b) ∈ (if c then dictSet l k v else l) := by
  split_ifs
  · exact mem_dictSet_ne v hmem hne
  · exact hmem

theorem lookupA_setCors_ne (hs : List (String × String)) (opsec : Bool)
    (cors : String) (k : String)
    (h1 : k ≠ "Access-Control-Allow-Origin")
    (h2 : k ≠ "Access-Control-Allow-Methods")
    (h3 : k ≠ "Access-Control-Allow-Headers")
    (h4 : k ≠ "Access-Control-Expose-Headers") :
    lookupA (setCorsHeaders hs opsec cors) k = lookupA hs k := by
  unfold setCorsHeaders
  rw [lookupA_condSet_ne _ _ _ (Ne.symm h4), lookupA_condSet_ne _ _ _ (Ne.symm h3),
      lookupA_condSet_ne _ _ _ (Ne.symm h2), lookupA_condSet_ne _ _ _ (Ne.symm h1)]

theorem mem_setCors_of_mem {a b : String} (hs : List (String × String))
    (opsec : Bool) (cors : String)
    (hmem : (a, b) ∈ hs)
    (h1 : a ≠ "Access-Control-Allow-Origin")
    (h2 : a ≠ "Access-Control-Allow-Methods")
    (h3 : a ≠ "Access-Control-Allow-Headers")
    (h4 : a ≠ "Access-Control-Expose-Headers") :
    (a, b) ∈ setCorsHeaders hs opsec cors := by
  unfold setCorsHeaders
  exact mem_condSet_ne _ _ _
    (mem_condSet_ne _ _ _ (mem_condSet_ne _ _ _ (mem_condSet_ne _ _ _ hmem h1) h2) h3) h4

/-! ### Claim C4 -/

/-- Claim C4: the pre-dispatch keep-alive decision satisfies the spec table:
decoy (OPSEC) mode forces close; otherwise `Connection: close` forces close;
otherwise HTTP/1.1 means keep-alive; any other version keeps alive iff the
`Connection` header equals `keep-alive` case-insensitively. -/
theorem c4_keep_alive_table (opsec_mode : Bool) (req : HTTPRequest) :
    shouldKeepAlive opsec_mode req = true ↔
      (opsec_mode = false ∧
       asciiLower ((lookupA req.headers "connection").getD "") ≠ "close" ∧
       (req.http_version = "HTTP/1.1" ∨
        asciiLower ((lookupA req.headers "connection").getD "") = "keep-alive")) := by
  cases opsec_mode
  · by_cases hc : asciiLower ((lookupA req.headers "connection").getD "") = "close" <;>
      by_cases hv : req.http_version = "HTTP/1.1" <;>
        simp [shouldKeepAlive, hc, hv]
  · simp [shouldKeepAlive]

/-! ### Claim C6 -/

/-- The comma-separated token list of a `Connection` header value, lowercased
and with each token stripped — the check the claim describes. -/
def wsConnTokens (conn : String) : List String :=
  (splitOnSub [','] (asciiLower conn).data).map (fun t => String.mk (trimCharsL t))

/-- A request whose `Connection` header contains `upgrade` only as a
substring of a larger token. -/
def c6Request : HTTPRequest :=
  ⟨"GET", "/notes/ws", [], "HTTP/1.1",
   [("upgrade", "websocket"), ("connection", "xupgradex"),
    ("sec-websocket-key", "abc")], []⟩

/-- Claim C6 counterexample: `check_websocket_upgrade` accepts a request
whose `Connection` header token list does not contain the token `upgrade`
(the code tests substring containment, not token membership). -/
theorem c6_counterexample :
    checkWebsocketUpgrade c6Request = true ∧
    wsConnTokens ((lookupA c6Request.headers "connection").getD "") = ["xupgradex"] ∧
    ("upgrade" : String) ≠ "xupgradex" := by
  refine ⟨by decide, by decide, by decide⟩

theorem string_length_pos_iff (s : String) : (0 < s.length) ↔ s ≠ "" := by
  obtain ⟨data⟩ := s
  cases data with
  | nil => simp [String.length]
  | cons c cs =>
      constructor
      · intro _ h
        have hd : (c :: cs : List Char) = [] := congrArg String.data h
        simp at hd
      · intro _
        simp [String.length]

/-- Claim C6 (amended): a request is treated as a WebSocket upgrade iff,
case-insensitively, its `Upgrade` header equals `websocket`, its `Connection`
header contains `upgrade` as a substring (not necessarily as a list token),
and its `Sec-WebSocket-Key` header is non-empty. -/
theorem c6_upgrade_check (req : HTTPRequest) :
    checkWebsocketUpgrade req = true ↔
      (asciiLower ((lookupA req.headers "upgrade").getD "") = "websocket" ∧
       listHasSub "upgrade".data
         (asciiLower ((lookupA req.headers "connection").getD "")).data = true ∧
       (lookupA req.headers "sec-websocket-key").getD "" ≠ "") := by
  unfold checkWebsocketUpgrade
  simp only [Bool.and_eq_true, beq_iff_eq, decide_eq_true_eq, gt_iff_lt]
  rw [string_length_pos_iff]
  tauto

/-! ### Claim C8 -/

theorem parseWsRest_eq (data : List Nat) (opcode : Nat) (masked : Bool)
    (plen off : Nat) :
    parseWsRest data opcode masked plen off =
      (if data.length < off + (if masked then 4 else 0) + plen then none
       else some (opcode,
         (if masked then
            wsUnmask ((data.drop off).take 4) 0 ((data.drop (off + 4)).take plen)
          else (data.drop off).take plen),
         off + (if masked then 4 else 0) + plen)) := by
  cases masked with
  | false => simp [parseWsRest]
  | true =>
      simp only [parseWsRest, if_true]
      split_ifs with h1 h2 h3 h3 <;> first | rfl | omega

/-- Claim C8: `parse_ws_frame` agrees everywhere with the parser described by
the specification: a frame is returned only when the 2-byte base header, any
16/64-bit extended length, the 4-byte mask key (when masked) and all declared
payload bytes are present, `consumed` is that total length, any shorter
buffer yields `none` (never partial data), and a masked payload is the raw
payload XORed bytewise with `maskKey[i mod 4]`. -/
theorem c8_parse_ws_frame_spec (data : List Nat) :
    parseWsFrame data = wsFrameSpec data := by
  unfold parseWsFrame wsFrameSpec
  by_cases h2 : data.length < 2
  · simp [h2]
  · simp only [h2, if_false]
    set b1 := data.getD 1 0 with hb1
    by_cases h126 : b1 &&& 127 = 126
    · simp only [h126, if_true, parseWsRest_eq]
      by_cases h4 : data.length < 4
      · simp [h4, show (2:Nat) + 2 = 4 from rfl]
      · simp only [h4, if_false, show (2:Nat) + 2 = 4 from rfl, if_true, eq_self_iff_true,
                   true_or]
        cases hm : (b1 &&& 128) != 0 <;>
          simp [hm] <;> split_ifs <;> first | rfl | omega | simp | (norm_num; try omega)
    · by_cases h127 : b1 &&& 127 = 127
      · simp only [h126, h127, if_false, if_true, parseWsRest_eq]
        by_cases h10 : data.length < 10
        · simp [h10, show (2:Nat) + 8 = 10 from rfl]
        · simp only [h10, if_false, show (2:Nat) + 8 = 10 from rfl, if_true,
                     eq_self_iff_true, or_true]
          cases hm : (b1 &&& 128) != 0 <;>
            simp [hm] <;> split_ifs <;> first | rfl | omega | simp | (norm_num; try omega)
      · have hor : ¬ (b1 &&& 127 = 126 ∨ b1 &&& 127 = 127) := by tauto
        have hext : ¬ data.length < 2 + 0 := by omega
        simp only [h126, h127, hor, hext, if_false, parseWsRest_eq,
                   show ((2:Nat) + 0) = 2 from rfl]
        cases hm : (b1 &&& 128) != 0 <;>
          simp [hm] <;> split_ifs <;> first | rfl | omega | simp | (norm_num; try omega)

/-! ### Claim C2 -/

/-- A streaming response (stream reference set, no explicit headers). -/
def c2Response : HTTPResponse := ⟨200, [], [], some "file.bin"⟩

/-- Claim C2 counterexample: the builder itself does not force
`Connection: close` for a streaming response — called directly with the
keep-alive flag set, it serializes `Connection: keep-alive`. -/
theorem c2_counterexample :
    c2Response.stream_path ≠ none ∧
    "Connection: keep-alive" ∈ buildHeaderLines c2Response false "*" true 15 100 "D" ∧
    "Connection: close" ∉ buildHeaderLines c2Response false "*" true 15 100 "D" := by
  refine ⟨by decide, by decide, by decide⟩

theorem lookupA_finalize_false_connection (hs : List (String × String))
    (opsec : Bool) (cors : String) (kaT kaM : Nat) (dateStr : String) :
    lookupA (finalizeHeaders hs opsec cors false kaT kaM dateStr) "Connection" =
      some "close" := by
  have hf : finalizeHeaders hs opsec cors false kaT kaM dateStr =
      setCorsHeaders
        (dictSet (dictSet (dictSet hs "Server"
            (if opsec then "nginx" else "ExperimentalHTTPServer/" ++ configVersion))
          "Date" dateStr) "Connection" "close") opsec cors := rfl
  rw [hf, lookupA_setCors_ne _ _ _ _ (by decide) (by decide) (by decide) (by decide),
      lookupA_dictSet_self]

/-- Claim C2 (amended): the builder serializes `Connection` purely from the
keep-alive flag it is given; the streaming invariant lives in the connection
driver, which always overrides the flag to `False` for a response whose
stream reference is set — so the header block the server actually sends for
a streaming response always contains `Connection: close`, whatever the
driver's own keep-alive intent was. -/
theorem c2_stream_forces_close (r : HTTPResponse) (opsec : Bool) (cors : String)
    (keepAlive : Bool) (kaT kaM : Nat) (dateStr : String)
    (h : r.stream_path ≠ none) :
    lookupA (finalizeHeaders r.headers opsec cors false kaT kaM dateStr)
      "Connection" = some "close" ∧
    "Connection: close" ∈ streamHeaderLines r opsec cors keepAlive kaT kaM dateStr := by
  constructor
  · exact lookupA_finalize_false_connection _ _ _ _ _ _
  · have hf : finalizeHeaders r.headers opsec cors false kaT kaM dateStr =
        setCorsHeaders
          (dictSet (dictSet (dictSet r.headers "Server"
              (if opsec then "nginx" else "ExperimentalHTTPServer/" ++ configVersion))
            "Date" dateStr) "Connection" "close") opsec cors := rfl
    have hmem : ("Connection", "close") ∈
        finalizeHeaders r.headers opsec cors false kaT kaM dateStr := by
      rw [hf]
      exact mem_setCors_of_mem _ _ _ (mem_dictSet_self _ _ _)
        (by decide) (by decide) (by decide) (by decide)
    unfold streamHeaderLines buildHeaderLines
    refine List.mem_cons_of_mem _ ?_
    have h2 := List.mem_map_of_mem (fun p : String × String => p.1 ++ ": " ++ p.2) hmem
    have he : (fun p : String × String => p.1 ++ ": " ++ p.2) ("Connection", "close") =
        "Connection: close" := by decide
    rw [he] at h2
    exact h2

/-- Claim C2 witness. -/
theorem c2_stream_forces_close_witness :
    c2Response.stream_path ≠ none ∧
    (lookupA (finalizeHeaders c2Response.headers false "*" false 15 100 "D")
        "Connection" = some "close" ∧
     "Connection: close" ∈ streamHeaderLines c2Response false "*" true 15 100 "D") :=
  ⟨by decide, c2_stream_forces_close c2Response false "*" true 15 100 "D" (by decide)⟩

/-! ### Claim C3 -/

/-- The four CORS headers guarded by `_set_cors_headers`. -/
def corsHeaderNames : List String :=
  ["Access-Control-Allow-Origin", "Access-Control-Allow-Methods",
   "Access-Control-Allow-Headers", "Access-Control-Expose-Headers"]

/-- Claim C3 counterexample: a caller-set `Server` header (and likewise a
caller-set `Connection` header) is overwritten at serialization time, not
preserved. -/
theorem c3_counterexample :
    lookupA (finalizeHeaders [("Server", "custom")] false "*" false 15 100 "D")
        "Server" = some "ExperimentalHTTPServer/2.0.0" ∧
    ("ExperimentalHTTPServer/2.0.0" : String) ≠ "custom" ∧
    lookupA (finalizeHeaders [("Connection", "keep-alive")] false "*" false 15 100 "D")
        "Connection" = some "close" := by
  refine ⟨by decide, by decide, by decide⟩

theorem lookupA_condSet_guarded (l : List (String × String)) (k w v : String)
    (hv : lookupA l k = some v) :
    lookupA (if (lookupA l k).isNone then dictSet l k w else l) k = some v := by
  simp [hv]

theorem lookupA_condSet_guarded4 (l : List (String × String)) (k w v : String)
    (opsec : Bool) (hv : lookupA l k = some v) :
    lookupA (if (lookupA l k).isNone ∧ opsec = false then dictSet l k w else l) k
      = some v := by
  simp [hv]

theorem lookupA_setCors_of_some (hs : List (String × String)) (opsec : Bool)
    (cors k v : String) (hk : k ∈ corsHeaderNames)
    (hv : lookupA hs k = some v) :
    lookupA (setCorsHeaders hs opsec cors) k = some v := by
  simp only [corsHeaderNames, List.mem_cons, List.mem_singleton,
             List.not_mem_nil, or_false] at hk
  unfold setCorsHeaders
  rcases hk with rfl | rfl | rfl | rfl
  · rw [lookupA_condSet_ne _ _ _ (by decide), lookupA_condSet_ne _ _ _ (by decide),
        lookupA_condSet_ne _ _ _ (by decide)]
    exact lookupA_condSet_guarded _ _ _ _ hv
  · rw [lookupA_condSet_ne _ _ _ (by decide), lookupA_condSet_ne _ _ _ (by decide)]
    exact lookupA_condSet_guarded _ _ _ _
      (by rw [lookupA_condSet_ne _ _ _ (by decide)]; exact hv)
  · rw [lookupA_condSet_ne _ _ _ (by decide)]
    exact lookupA_condSet_guarded _ _ _ _
      (by rw [lookupA_condSet_ne _ _ _ (by decide),
              lookupA_condSet_ne _ _ _ (by decide)]; exact hv)
  · exact lookupA_condSet_guarded4 _ _ _ _ _
      (by rw [lookupA_condSet_ne _ _ _ (by decide),
              lookupA_condSet_ne _ _ _ (by decide),
              lookupA_condSet_ne _ _ _ (by decide)]; exact hv)

theorem finalize_true_eq (hs : List (String × String)) (opsec : Bool)
    (cors : String) (kaT kaM : Nat) (dateStr : String) :
    finalizeHeaders hs opsec cors true kaT kaM dateStr =
      setCorsHeaders
        (dictSet (dictSet (dictSet (dictSet hs "Server"
            (if opsec then "nginx" else "ExperimentalHTTPServer/" ++ configVersion))
          "Date" dateStr) "Connection" "keep-alive") "Keep-Alive"
          ("timeout=" ++ toString kaT ++ ", max=" ++ toString kaM)) opsec cors := rfl

theorem finalize_false_eq (hs : List (String × String)) (opsec : Bool)
    (cors : String) (kaT kaM : Nat) (dateStr : String) :
    finalizeHeaders hs opsec cors false kaT kaM dateStr =
      setCorsHeaders
        (dictSet (dictSet (dictSet hs "Server"
            (if opsec then "nginx" else "ExperimentalHTTPServer/" ++ configVersion))
          "Date" dateStr) "Connection" "close") opsec cors := rfl

/-- Claim C3 (amended): at serialization time only the four CORS headers are
injected conditionally — a caller-set value for any of them is preserved —
while `Server`, `Date` and `Connection` (and `Keep-Alive` when keep-alive is
on) are unconditionally overwritten with the standard values, clobbering any
caller-set value. -/
theorem c3_standard_headers (hs : List (String × String)) (opsec : Bool)
    (cors : String) (ka : Bool) (kaT kaM : Nat) (dateStr k v : String)
    (hk : k ∈ corsHeaderNames) (hv : lookupA hs k = some v) :
    lookupA (finalizeHeaders hs opsec cors ka kaT kaM dateStr) k = some v ∧
    lookupA (finalizeHeaders hs opsec cors ka kaT kaM dateStr) "Server" =
      some (if opsec then "nginx" else "ExperimentalHTTPServer/2.0.0") ∧
    lookupA (finalizeHeaders hs opsec cors ka kaT kaM dateStr) "Date" =
      some dateStr ∧
    lookupA (finalizeHeaders hs opsec cors ka kaT kaM dateStr) "Connection" =
      some (if ka then "keep-alive" else "close") := by
  have hserver : ("ExperimentalHTTPServer/" ++ configVersion : String) =
      "ExperimentalHTTPServer/2.0.0" := by decide
  have hks : k ≠ "Server" ∧ k ≠ "Date" ∧ k ≠ "Connection" ∧ k ≠ "Keep-Alive" := by
    simp only [corsHeaderNames, List.mem_cons, List.mem_singleton,
               List.not_mem_nil, or_false] at hk
    rcases hk with rfl | rfl | rfl | rfl <;>
      exact ⟨by decide, by decide, by decide, by decide⟩
  obtain ⟨hk1, hk2, hk3, hk4⟩ := hks
  cases ka
  · refine ⟨?_, ?_, ?_, ?_⟩
    · rw [finalize_false_eq]
      refine lookupA_setCors_of_some _ _ _ _ _ hk ?_
      rw [lookupA_dictSet_ne _ _ (Ne.symm hk3), lookupA_dictSet_ne _ _ (Ne.symm hk2),
          lookupA_dictSet_ne _ _ (Ne.symm hk1)]
      exact hv
    · rw [finalize_false_eq,
          lookupA_setCors_ne _ _ _ _ (by decide) (by decide) (by decide) (by decide),
          lookupA_dictSet_ne _ _ (by decide), lookupA_dictSet_ne _ _ (by decide),
          lookupA_dictSet_self, hserver]
    · rw [finalize_false_eq,
          lookupA_setCors_ne _ _ _ _ (by decide) (by decide) (by decide) (by decide),
          lookupA_dictSet_ne _ _ (by decide), lookupA_dictSet_self]
    · rw [finalize_false_eq,
          lookupA_setCors_ne _ _ _ _ (by decide) (by decide) (by decide) (by decide),
          lookupA_dictSet_self]
      rfl
  · refine ⟨?_, ?_, ?_, ?_⟩
    · rw [finalize_true_eq]
      refine lookupA_setCors_of_some _ _ _ _ _ hk ?_
      rw [lookupA_dictSet_ne _ _ (Ne.symm hk4), lookupA_dictSet_ne _ _ (Ne.symm hk3),
          lookupA_dictSet_ne _ _ (Ne.symm hk2), lookupA_dictSet_ne _ _ (Ne.symm hk1)]
      exact hv
    · rw [finalize_true_eq,
          lookupA_setCors_ne _ _ _ _ (by decide) (by decide) (by decide) (by decide),
          lookupA_dictSet_ne _ _ (by decide), lookupA_dictSet_ne _ _ (by decide),
          lookupA_dictSet_ne _ _ (by decide), lookupA_dictSet_self, hserver]
    · rw [finalize_true_eq,
          lookupA_setCors_ne _ _ _ _ (by decide) (by decide) (by decide) (by decide),
          lookupA_dictSet_ne _ _ (by decide), lookupA_dictSet_ne _ _ (by decide),
          lookupA_dictSet_self]
    · rw [finalize_true_eq,
          lookupA_setCors_ne _ _ _ _ (by decide) (by decide) (by decide) (by decide),
          lookupA_dictSet_ne _ _ (by decide), lookupA_dictSet_self]
      rfl

/-- Claim C3 witness. -/
theorem c3_standard_headers_witness :
    ("Access-Control-Allow-Origin" ∈ corsHeaderNames ∧
     lookupA [("Access-Control-Allow-Origin", "http://example.test")]
       "Access-Control-Allow-Origin" = some "http://example.test") ∧
    (lookupA (finalizeHeaders [("Access-Control-Allow-Origin", "http://example.test")]
        false "*" false 15 100 "D") "Access-Control-Allow-Origin" =
          some "http://example.test" ∧
     lookupA (finalizeHeaders [("Access-Control-Allow-Origin", "http://example.test")]
        false "*" false 15 100 "D") "Server" =
          some (if false then "nginx" else "ExperimentalHTTPServer/2.0.0") ∧
     lookupA (finalizeHeaders [("Access-Control-Allow-Origin", "http://example.test")]
        false "*" false 15 100 "D") "Date" = some "D" ∧
     lookupA (finalizeHeaders [("Access-Control-Allow-Origin", "http://example.test")]
        false "*" false 15 100 "D") "Connection" =
          some (if false then "keep-alive" else "close")) :=
  ⟨⟨by decide, by decide⟩,
   c3_standard_headers _ false "*" false 15 100 "D" _ _ (by decide) (by decide)⟩

/-! ### Claim C5 -/

/-- Claim C5: decoy-mode method resolution.  With the five decoy tokens
pairwise distinct and none of them a standard token (both true of every
actually generated table, see C7): a standard token resolves to its fixed
handler; each decoy token resolves to its internal operation (upload,
download, info, ping, notepad); any other token resolves to the implicit
upload handler exactly when the request carries a non-empty body; and a
`none` resolution makes the driver answer with the bare 404 response. -/
theorem c5_opsec_dispatch (om : OpsecMethods) (body : List Nat)
    (hnd : ([om.upload, om.download, om.info, om.ping, om.notepad] : List String).Nodup)
    (hfix : ∀ t ∈ [om.upload, om.download, om.info, om.ping, om.notepad],
       lookupA methodHandlers t = none) :
    (∀ m h, lookupA methodHandlers m = some h → getOpsecHandler om m body = some h) ∧
    getOpsecHandler om om.upload body = some Handler.hOpsecUpload ∧
    getOpsecHandler om om.download body = some Handler.hFetch ∧
    getOpsecHandler om om.info body = some Handler.hInfo ∧
    getOpsecHandler om om.ping body = some Handler.hPing ∧
    getOpsecHandler om om.notepad body = some Handler.hNote ∧
    (∀ m, lookupA methodHandlers m = none →
       m ∉ [om.upload, om.download, om.info, om.ping, om.notepad] →
       getOpsecHandler om m body =
         (if body = [] then none else some Handler.hOpsecUpload)) ∧
    (∀ m b2, getOpsecHandler om m b2 = none →
       opsecDispatch om m b2 = Sum.inl opsecNotFoundResponse) ∧
    opsecNotFoundResponse.status_code = 404 := by
  simp only [List.nodup_cons, List.mem_cons, List.mem_singleton,
             List.not_mem_nil, or_false, not_or, List.nodup_nil, and_true] at hnd
  obtain ⟨⟨hud, hui, hup, hun⟩, ⟨hdi, hdp, hdn⟩, ⟨hip, hin⟩, hpn, -⟩ := hnd
  have fx1 := hfix om.upload (by simp)
  have fx2 := hfix om.download (by simp)
  have fx3 := hfix om.info (by simp)
  have fx4 := hfix om.ping (by simp)
  have fx5 := hfix om.notepad (by simp)
  refine ⟨?_, ?_, ?_, ?_, ?_, ?_, ?_, ?_, rfl⟩
  · intro m h hm
    simp [getOpsecHandler, hm]
  · simp [getOpsecHandler, fx1]
  · simp [getOpsecHandler, fx2, Ne.symm hud]
  · simp [getOpsecHandler, fx3, Ne.symm hui, Ne.symm hdi]
  · simp [getOpsecHandler, fx4, Ne.symm hup, Ne.symm hdp, Ne.symm hip]
  · simp [getOpsecHandler, fx5, Ne.symm hun, Ne.symm hdn, Ne.symm hin, Ne.symm hpn]
  · intro m hm hmem
    simp only [List.mem_cons, List.mem_singleton, List.not_mem_nil, or_false,
               not_or] at hmem
    obtain ⟨h1, h2, h3, h4, h5⟩ := hmem
    simp [getOpsecHandler, hm, h1, h2, h3, h4, h5]
  · intro m b2 hm
    simp [opsecDispatch, hm]

/-- Claim C5 witness: a concrete decoy table with distinct non-standard
tokens. -/
theorem c5_opsec_dispatch_witness :
    (([("CHECKDATA" : String), "SYNCSTATUS", "VERIFYINFO", "UPDATECONTENT",
       "QUERYRESOURCE"]).Nodup ∧
     ∀ t ∈ ([("CHECKDATA" : String), "SYNCSTATUS", "VERIFYINFO", "UPDATECONTENT",
        "QUERYRESOURCE"]), lookupA methodHandlers t = none) ∧
    getOpsecHandler
      ⟨"CHECKDATA", "SYNCSTATUS", "VERIFYINFO", "UPDATECONTENT", "QUERYRESOURCE"⟩
      "SYNCSTATUS" [] = some Handler.hFetch :=
  ⟨⟨by decide, by decide⟩,
   (c5_opsec_dispatch
      ⟨"CHECKDATA", "SYNCSTATUS", "VERIFYINFO", "UPDATECONTENT", "QUERYRESOURCE"⟩
      [] (by decide) (by decide)).2.2.1⟩

/-! ### Claim C7 -/

/-- All 100 tokens `_random_method_name` can produce. -/
def opsecAllTokens : List String :=
  opsecMethodHeads.bind (fun p => opsecMethodTails.map (fun s => p ++ s))

theorem opsecAllTokens_nodup : opsecAllTokens.Nodup := by decide

theorem randomMethodName_getD :
    ∀ p, p < 10 → ∀ s, s < 10 →
      randomMethodName p s = opsecAllTokens.getD (p * 10 + s) "" := by decide

theorem opsecAllTokens_length : opsecAllTokens.length = 100 := by decide

theorem randomMethodName_inj {p1 s1 p2 s2 : Nat}
    (hp1 : p1 < 10) (hs1 : s1 < 10) (hp2 : p2 < 10) (hs2 : s2 < 10)
    (h : randomMethodName p1 s1 = randomMethodName p2 s2) :
    p1 = p2 ∧ s1 = s2 := by
  rw [randomMethodName_getD p1 hp1 s1 hs1, randomMethodName_getD p2 hp2 s2 hs2] at h
  have hl1 : p1 * 10 + s1 < opsecAllTokens.length := by
    rw [opsecAllTokens_length]; omega
  have hl2 : p2 * 10 + s2 < opsecAllTokens.length := by
    rw [opsecAllTokens_length]; omega
  rw [opsecAllTokens.getD_eq_get _ hl1, opsecAllTokens.getD_eq_get _ hl2] at h
  have := (List.Nodup.get_inj_iff opsecAllTokens_nodup).mp h
  have hv : p1 * 10 + s1 = p2 * 10 + s2 := congrArg Fin.val this
  omega

/-- Claim C7 counterexample: the generator draws the five tokens
independently with no uniqueness check, so the draw that picks prefix 0 and
suffix 0 five times — a possible draw — produces five identical tokens; in
particular the upload and download tokens coincide. -/
theorem c7_counterexample :
    (generateOpsecMethods (0, 0) (0, 0) (0, 0) (0, 0) (0, 0)).upload = "CHECKDATA" ∧
    (generateOpsecMethods (0, 0) (0, 0) (0, 0) (0, 0) (0, 0)).download = "CHECKDATA" ∧
    (0 : Nat) < 10 := by
  refine ⟨by decide, by decide, by decide⟩

/-- Claim C7 (amended): a generated token determines its (prefix, suffix)
draw, so the five tokens are pairwise distinct iff the five draws are
pairwise distinct — uniqueness is not enforced and a repeated draw yields
repeated tokens; and for every draw the decoy-mode dispatch still resolves
every standard verb of the fixed table. -/
theorem c7_decoy_table (dU dD dI dP dN : Nat × Nat)
    (hU : dU.1 < 10 ∧ dU.2 < 10) (hD : dD.1 < 10 ∧ dD.2 < 10)
    (hI : dI.1 < 10 ∧ dI.2 < 10) (hP : dP.1 < 10 ∧ dP.2 < 10)
    (hN : dN.1 < 10 ∧ dN.2 < 10)
    (hdraws : ([dU, dD, dI, dP, dN] : List (Nat × Nat)).Nodup) :
    (let om := generateOpsecMethods dU dD dI dP dN
     ([om.upload, om.download, om.info, om.ping, om.notepad] : List String).Nodup) ∧
    (∀ body m h, lookupA methodHandlers m = some h →
       getOpsecHandler (generateOpsecMethods dU dD dI dP dN) m body = some h) := by
  constructor
  · simp only [List.nodup_cons, List.mem_cons, List.mem_singleton,
               List.not_mem_nil, or_false, not_or, List.nodup_nil, and_true] at hdraws ⊢
    obtain ⟨⟨hud, hui, hup, hun⟩, ⟨hdi, hdp, hdn⟩, ⟨hip, hin⟩, hpn, -⟩ := hdraws
    have inj2 : ∀ a b : Nat × Nat, a.1 < 10 → a.2 < 10 → b.1 < 10 → b.2 < 10 →
        a ≠ b → randomMethodName a.1 a.2 ≠ randomMethodName b.1 b.2 := by
      intro a b ha1 ha2 hb1 hb2 hne h
      obtain ⟨h1, h2⟩ := randomMethodName_inj ha1 ha2 hb1 hb2 h
      exact hne (Prod.ext h1 h2)
    exact ⟨⟨inj2 dU dD hU.1 hU.2 hD.1 hD.2 hud,
            inj2 dU dI hU.1 hU.2 hI.1 hI.2 hui,
            inj2 dU dP hU.1 hU.2 hP.1 hP.2 hup,
            inj2 dU dN hU.1 hU.2 hN.1 hN.2 hun⟩,
           ⟨inj2 dD dI hD.1 hD.2 hI.1 hI.2 hdi,
            inj2 dD dP hD.1 hD.2 hP.1 hP.2 hdp,
            inj2 dD dN hD.1 hD.2 hN.1 hN.2 hdn⟩,
           ⟨inj2 dI dP hI.1 hI.2 hP.1 hP.2 hip,
            inj2 dI dN hI.1 hI.2 hN.1 hN.2 hin⟩,
           inj2 dP dN hP.1 hP.2 hN.1 hN.2 hpn, not_false⟩
  · intro body m h hm
    simp [getOpsecHandler, hm]

/-- Claim C7 witness. -/
theorem c7_decoy_table_witness :
    ((0, 0).1 < 10 ∧ ([((0 : Nat), (0 : Nat)), (1, 1), (2, 2), (3, 3), (4, 4)] :
        List (Nat × Nat)).Nodup) ∧
    (let om := generateOpsecMethods (0, 0) (1, 1) (2, 2) (3, 3) (4, 4)
     ([om.upload, om.download, om.info, om.ping, om.notepad] : List String).Nodup) :=
  ⟨⟨by decide, by decide⟩,
   (c7_decoy_table (0, 0) (1, 1) (2, 2) (3, 3) (4, 4)
      (by decide) (by decide) (by decide) (by decide) (by decide) (by decide)).1⟩

/-! ### Claim C10 -/

theorem mem_finalize_keepalive (hs : List (String × String)) (opsec : Bool)
    (cors : String) (kaT kaM : Nat) (dateStr : String) :
    ("Connection", "keep-alive") ∈ finalizeHeaders hs opsec cors true kaT kaM dateStr := by
  rw [finalize_true_eq]
  exact mem_setCors_of_mem _ _ _
    (mem_dictSet_ne _ (mem_dictSet_self _ _ _) (by decide))
    (by decide) (by decide) (by decide) (by decide)

/-- Claim C10: when auth is enabled and a request is rejected — rate-limited
(429) or unauthenticated (401) — `_process_request` returns `False`, so the
`_handle_client` loop sends no further request on this connection; and since
the builder arguments were fixed before the auth check, a positive keep-alive
decision still puts `Connection: keep-alive` in the very response after which
the server closes the socket. -/
theorem c10_auth_reject_closes (authEnabled blocked authOk : Bool)
    (wwwAuth : String) (r : HTTPResponse) (ret : Bool)
    (h : authOutcome authEnabled blocked authOk wwwAuth = some (r, ret)) :
    ret = false ∧
    (r.status_code = 429 ∨ r.status_code = 401) ∧
    (∀ opsec cors kaT kaM dateStr,
       "Connection: keep-alive" ∈ buildHeaderLines r opsec cors true kaT kaM dateStr) ∧
    (∀ (process : List Nat → Nat → Bool) (d : List Nat) (rest : List (List Nat)) (n : Nat),
       d ≠ [] → process d (n + 1) = false →
       handleClientCount process (d :: rest) n = 1) := by
  have hr : (r = resp429 ∧ ret = false) ∨ (r = resp401 wwwAuth ∧ ret = false) := by
    unfold authOutcome at h
    split_ifs at h <;> simp only [Option.some.injEq, Prod.mk.injEq] at h <;>
      first
        | exact Or.inl ⟨h.1.symm, h.2.symm⟩
        | exact Or.inr ⟨h.1.symm, h.2.symm⟩
  have hka : ∀ (resp : HTTPResponse) opsec cors kaT kaM dateStr,
      "Connection: keep-alive" ∈ buildHeaderLines resp opsec cors true kaT kaM dateStr := by
    intro resp opsec cors kaT kaM dateStr
    unfold buildHeaderLines
    refine List.mem_cons_of_mem _ ?_
    have h2 := List.mem_map_of_mem (fun p : String × String => p.1 ++ ": " ++ p.2)
      (mem_finalize_keepalive resp.headers opsec cors kaT kaM dateStr)
    have he : (fun p : String × String => p.1 ++ ": " ++ p.2) ("Connection", "keep-alive") =
        "Connection: keep-alive" := by decide
    rw [he] at h2
    exact h2
  rcases hr with ⟨hr, hret⟩ | ⟨hr, hret⟩ <;>
    refine ⟨hret, ?_, fun opsec cors kaT kaM dateStr => hka r opsec cors kaT kaM dateStr, ?_⟩
  · exact Or.inl (by rw [hr]; rfl)
  · intro process d rest n hd hp
    simp [handleClientCount, hd, hp]
  · exact Or.inr (by rw [hr]; rfl)
  · intro process d rest n hd hp
    simp [handleClientCount, hd, hp]

/-- Claim C10 witness. -/
theorem c10_auth_reject_closes_witness :
    authOutcome true true true "Basic realm=x" = some (resp429, false) ∧
    (false = false ∧
     (resp429.status_code = 429 ∨ resp429.status_code = 401) ∧
     (∀ opsec cors kaT kaM dateStr,
        "Connection: keep-alive" ∈
          buildHeaderLines resp429 opsec cors true kaT kaM dateStr) ∧
     (∀ (process : List Nat → Nat → Bool) (d : List Nat) (rest : List (List Nat)) (n : Nat),
        d ≠ [] → process d (n + 1) = false →
        handleClientCount process (d :: rest) n = 1)) :=
  ⟨by decide, c10_auth_reject_closes true true true "Basic realm=x" resp429 false (by decide)⟩

/-! ### Claim C9 -/

/-- Claim C9 counterexample: on `b"\xff\r\n\r\nB"` construction does not
raise (the model is total) and the parse failure (the header block is not
valid UTF-8) leaves method, path, version, headers and query empty — but the
body is *not* empty: it was split off before the failing decode and keeps the
bytes after the boundary. -/
theorem c9_counterexample :
    (parseHTTPRequest [255, 13, 10, 13, 10, 66]).method = "" ∧
    (parseHTTPRequest [255, 13, 10, 13, 10, 66]).http_version = "" ∧
    (parseHTTPRequest [255, 13, 10, 13, 10, 66]).headers = [] ∧
    (parseHTTPRequest [255, 13, 10, 13, 10, 66]).query_params = [] ∧
    (parseHTTPRequest [255, 13, 10, 13, 10, 66]).body = [66] ∧
    ([66] : List Nat) ≠ [] := by
  refine ⟨by decide, by decide, by decide, by decide, by decide, by decide⟩

/-- Claim C9 (amended): constructing an `HTTPRequest` never raises (the parse
function is total); on a header-decode failure the fields assigned before the
failing statement keep their values — the body, split off first, retains the
bytes after the `\r\n\r\n` boundary — while all later fields stay at their
empty defaults; and the derived `content_length` is `0` whenever the
`content-length` header is absent or not parsable as an integer. -/
theorem c9_parse_never_raises (raw hdr body : List Nat)
    (hsplit : splitFirstSub crlfcrlf raw = some (hdr, body))
    (hdec : utf8Decode hdr = none) :
    parseHTTPRequest raw = ⟨"", "", [], "", [], body⟩ ∧
    (∀ hs : List (String × String),
       (lookupA hs "content-length" = none → contentLengthOf hs = 0) ∧
       (∀ v, lookupA hs "content-length" = some v → pyParseIntS v = none →
          contentLengthOf hs = 0)) := by
  constructor
  · simp [parseHTTPRequest, hsplit, hdec]
  · intro hs
    constructor
    · intro h
      simp [contentLengthOf, h]
    · intro v hv hp
      simp [contentLengthOf, hv, hp]

/-- Claim C9 witness. -/
theorem c9_parse_never_raises_witness :
    (splitFirstSub crlfcrlf [255, 13, 10, 13, 10, 66] = some ([255], [66]) ∧
     utf8Decode [255] = none) ∧
    (parseHTTPRequest [255, 13, 10, 13, 10, 66] = ⟨"", "", [], "", [], [66]⟩ ∧
     (∀ hs : List (String × String),
        (lookupA hs "content-length" = none → contentLengthOf hs = 0) ∧
        (∀ v, lookupA hs "content-length" = some v → pyParseIntS v = none →
           contentLengthOf hs = 0))) :=
  ⟨⟨by decide, by decide⟩,
   c9_parse_never_raises [255, 13, 10, 13, 10, 66] [255] [66] (by decide) (by decide)⟩

/-! ### Claim C1 -/

theorem startsWithL_length {α : Type} [DecidableEq α] :
    ∀ (l pat : List α), startsWithL l pat = true → pat.length ≤ l.length := by
  intro l
  induction l with
  | nil =>
      intro pat h
      cases pat with
      | nil => simp
      | cons y ys => simp [startsWithL] at h
  | cons x xs ih =>
      intro pat h
      cases pat with
      | nil => simp
      | cons y ys =>
          simp only [startsWithL] at h
          split_ifs at h with hxy
          have := ih ys h
          simp only [List.length_cons]
          omega

theorem startsWithL_append {α : Type} [DecidableEq α] :
    ∀ (l pat t : List α), startsWithL l pat = true → startsWithL (l ++ t) pat = true := by
  intro l
  induction l with
  | nil =>
      intro pat t h
      cases pat with
      | nil => cases t <;> simp [startsWithL]
      | cons y ys => simp [startsWithL] at h
  | cons x xs ih =>
      intro pat t h
      cases pat with
      | nil => simp [startsWithL]
      | cons y ys =>
          simp only [startsWithL] at h ⊢
          split_ifs at h with hxy
          simp only [List.cons_append, startsWithL, hxy, if_true]
          exact ih ys t h

theorem startsWithL_append_of_le {α : Type} [DecidableEq α] :
    ∀ (l pat t : List α), pat.length ≤ l.length →
      startsWithL (l ++ t) pat = startsWithL l pat := by
  intro l
  induction l with
  | nil =>
      intro pat t h
      cases pat with
      | nil => cases t <;> simp [startsWithL]
      | cons y ys => simp at h
  | cons x xs ih =>
      intro pat t h
      cases pat with
      | nil => simp [startsWithL]
      | cons y ys =>
          simp only [List.cons_append, startsWithL]
          split_ifs with hxy
          · exact ih ys t (by simp only [List.length_cons] at h; omega)
          · rfl

theorem findPat_le {α : Type} [DecidableEq α] (pat : List α) :
    ∀ (l : List α) (p : Nat), findPat pat l = some p → p + pat.length ≤ l.length := by
  intro l
  induction l with
  | nil => intro p h; simp [findPat] at h
  | cons x xs ih =>
      intro p h
      simp only [findPat] at h
      split_ifs at h with hs
      · have := startsWithL_length (x :: xs) pat hs
        simp only [Option.some.injEq] at h
        omega
      · simp only [Option.map_eq_some'] at h
        obtain ⟨q, hq, hpq⟩ := h
        have := ih q hq
        simp only [List.length_cons]
        omega

theorem findPat_append {α : Type} [DecidableEq α] (pat : List α) :
    ∀ (l : List α) (p : Nat) (t : List α),
      findPat pat l = some p → findPat pat (l ++ t) = some p := by
  intro l
  induction l with
  | nil => intro p t h; simp [findPat] at h
  | cons x xs ih =>
      intro p t h
      simp only [findPat] at h
      by_cases hs : startsWithL (x :: xs) pat = true
      · simp only [hs, if_true, Option.some.injEq] at h
        simp only [List.cons_append]
        have hs2 : startsWithL (x :: (xs ++ t)) pat = true := by
          have := startsWithL_append (x :: xs) pat t hs
          simpa [List.cons_append] using this
        simp [findPat, hs2, h]
      · rw [if_neg hs] at h
        simp only [Option.map_eq_some'] at h
        obtain ⟨q, hq, hpq⟩ := h
        have hlen : pat.length ≤ (x :: xs).length := by
          have := findPat_le pat xs q hq
          simp only [List.length_cons]
          omega
        have hs2 : startsWithL ((x :: xs) ++ t) pat = false := by
          rw [startsWithL_append_of_le (x :: xs) pat t hlen]
          exact eq_false_of_ne_true hs
        rw [List.cons_append] at hs2
        have hstep : findPat pat ((x :: xs) ++ t) =
            (findPat pat (xs ++ t)).map (· + 1) := by
          rw [List.cons_append]
          show (if startsWithL (x :: (xs ++ t)) pat = true then some 0
                else (findPat pat (xs ++ t)).map (· + 1)) =
            (findPat pat (xs ++ t)).map (· + 1)
          rw [if_neg (by simp [hs2])]
        rw [hstep, ih q t hq]
        simp [hpq]

theorem take_append_of_le_len {α : Type} (l t : List α) (n : Nat)
    (h : n ≤ l.length) : (l ++ t).take n = l.take n := by
  rw [List.take_append_eq_append_take, Nat.sub_eq_zero_of_le h, List.take_zero,
      List.append_nil]

theorem recvLoop_body_exact (capS : Nat) (full : List Nat) (p clN : Nat)
    (hlen : full.length = p + 4 + clN) (hcap : full.length ≤ capS) :
    ∀ (cs : List (List Nat)) (acc : List Nat),
      (∀ c ∈ cs, c ≠ []) → acc ++ cs.join = full → acc.length < full.length →
      p + 4 ≤ acc.length →
      recvLoop capS acc true (clN : Int) p cs = full := by
  intro cs
  induction cs with
  | nil =>
      intro acc _ hpre hlt _
      simp only [List.join_nil, List.append_nil] at hpre
      exact absurd (hpre ▸ hlt) (lt_irrefl _)
  | cons c cs ih =>
      intro acc hne hpre hlt hp4
      have hc : c ≠ [] := hne c (by simp)
      have hpre2 : (acc ++ c) ++ cs.join = full := by
        simpa [List.append_assoc] using hpre
      have hsum : (acc ++ c).length = acc.length + c.length :=
        List.length_append _ _
      have hFull := congrArg List.length hpre2
      rw [List.length_append, List.length_append] at hFull
      have hlen2 : (acc ++ c).length ≤ full.length := by omega
      have hp4b : p + 4 ≤ (acc ++ c).length := by omega
      simp only [recvLoop, hc, if_false]
      have hcapc : ¬ capS < (acc ++ c).length := by omega
      rw [if_neg hcapc]
      by_cases hdone : full.length ≤ (acc ++ c).length
      · have hjoin : cs.join = [] := List.length_eq_zero.mp (by omega)
        have hacc : acc ++ c = full := by
          rw [← hpre2, hjoin, List.append_nil]
        have hlf : (acc ++ c).length = full.length := by rw [hacc]
        have hcond : (clN : Int) ≤ (((acc ++ c).length - p - 4 : Nat) : Int) := by
          omega
        rw [if_pos hcond]
        exact hacc
      · have hlt2 : (acc ++ c).length < full.length := by omega
        have hcond : ¬ (clN : Int) ≤ (((acc ++ c).length - p - 4 : Nat) : Int) := by
          omega
        rw [if_neg hcond]
        exact ih (acc ++ c) (fun d hd => hne d (by simp [hd])) hpre2 hlt2 hp4b

theorem recvLoop_header_exact (capS : Nat) (full : List Nat) (p clN : Nat)
    (hfind : findPat crlfcrlf full = some p)
    (hclv : extractCL (full.take p) = (clN : Int))
    (hlen : full.length = p + 4 + clN) (hcap : full.length ≤ capS) :
    ∀ (cs : List (List Nat)) (acc : List Nat) (cl0 : Int) (hp0 : Nat),
      (∀ c ∈ cs, c ≠ []) → acc ++ cs.join = full → acc.length < full.length →
      findPat crlfcrlf acc = none →
      recvLoop capS acc false cl0 hp0 cs = full := by
  intro cs
  induction cs with
  | nil =>
      intro acc cl0 hp0 _ hpre hlt _
      simp only [List.join_nil, List.append_nil] at hpre
      exact absurd (hpre ▸ hlt) (lt_irrefl _)
  | cons c cs ih =>
      intro acc cl0 hp0 hne hpre hlt hfnone
      have hc : c ≠ [] := hne c (by simp)
      have hpre2 : (acc ++ c) ++ cs.join = full := by
        simpa [List.append_assoc] using hpre
      have hsum : (acc ++ c).length = acc.length + c.length :=
        List.length_append _ _
      have hFull := congrArg List.length hpre2
      rw [List.length_append, List.length_append] at hFull
      have hlen2 : (acc ++ c).length ≤ full.length := by omega
      simp only [recvLoop, hc, if_false]
      rw [if_neg (by omega)]
      cases hf2 : findPat crlfcrlf (acc ++ c) with
      | none =>
          refine ih (acc ++ c) cl0 hp0 (fun d hd => hne d (by simp [hd])) hpre2 ?_ hf2
          rcases Nat.lt_or_ge (acc ++ c).length full.length with hlt2 | hge
          · exact hlt2
          · exfalso
            have hjoin : cs.join = [] := List.length_eq_zero.mp (by omega)
            have hacc : acc ++ c = full := by
              rw [← hpre2, hjoin, List.append_nil]
            rw [hacc, hfind] at hf2
            exact Option.noConfusion hf2
      | some p2 =>
          have hp2 : p2 = p := by
            have := findPat_append crlfcrlf (acc ++ c) p2 cs.join hf2
            rw [hpre2, hfind] at this
            exact (Option.some.injEq _ _ ▸ this).symm
          subst hp2
          have hple : p2 + 4 ≤ (acc ++ c).length := by
            have := findPat_le crlfcrlf (acc ++ c) p2 hf2
            simpa [crlfcrlf] using this
          have hple2 : p2 ≤ (acc ++ c).length := by omega
          have htake : (acc ++ c).take p2 = full.take p2 := by
            rw [← hpre2, take_append_of_le_len (acc ++ c) cs.join p2 hple2]
          have hcl2 : extractCL ((acc ++ c).take p2) = (clN : Int) := by
            rw [htake]
            exact hclv
          change (if extractCL ((acc ++ c).take p2) ≤
                (((acc ++ c).length - p2 - 4 : Nat) : Int) then acc ++ c
              else recvLoop capS (acc ++ c) true
                (extractCL ((acc ++ c).take p2)) p2 cs) = full
          rw [hcl2]
          by_cases hdone : full.length ≤ (acc ++ c).length
          · have hjoin : cs.join = [] := List.length_eq_zero.mp (by omega)
            have hacc : acc ++ c = full := by
              rw [← hpre2, hjoin, List.append_nil]
            have hlf : (acc ++ c).length = full.length := by rw [hacc]
            have hcond : (clN : Int) ≤ (((acc ++ c).length - p2 - 4 : Nat) : Int) := by
              omega
            rw [if_pos hcond]
            exact hacc
          · have hlt2 : (acc ++ c).length < full.length := by omega
            have hcond : ¬ (clN : Int) ≤ (((acc ++ c).length - p2 - 4 : Nat) : Int) := by
              omega
            rw [if_neg hcond]
            exact recvLoop_body_exact capS full p2 clN hlen hcap cs (acc ++ c)
              (fun d hd => hne d (by simp [hd])) hpre2 hlt2 hple

/-- Claim C1 counterexample: a stream whose single chunk carries the complete
message plus one extra byte.  `GET / HTTP/1.1\r\n\r\nX` declares no
`Content-Length` (so 0), its header block ends at 14, yet the reader returns
all 19 received bytes instead of exactly 14 + 4 + 0 = 18 — the reader never
trims bytes that arrive in the chunk that completes the message. -/
theorem c1_counterexample :
    findPat crlfcrlf (strBytes "GET / HTTP/1.1\r\n\r\nX") = some 14 ∧
    extractCL ((strBytes "GET / HTTP/1.1\r\n\r\nX").take 14) = 0 ∧
    (receiveRequest (100 * 1024 * 1024) [strBytes "GET / HTTP/1.1\r\n\r\nX"]).length
      = 19 ∧
    14 + 4 + 0 ≠ 19 := by
  refine ⟨by decide, by decide, by decide, by decide⟩

/-- Claim C1 (amended): the reader returns every byte received up to and
including the chunk that completes the message, which is at least
header-block-length + `Content-Length` bytes and can be more when extra bytes
ride in that final chunk; when the stream consists of exactly
header-block-length + `Content-Length` bytes (in non-empty chunks, within the
size cap) the reader returns exactly those bytes. -/
theorem c1_receive_exact (cap : Nat) (chunks : List (List Nat)) (p clN : Nat)
    (hne : ∀ c ∈ chunks, c ≠ [])
    (hfind : findPat crlfcrlf chunks.join = some p)
    (hclv : extractCL (chunks.join.take p) = (clN : Int))
    (hlen : chunks.join.length = p + 4 + clN)
    (hcap : chunks.join.length ≤ cap + 65536) :
    receiveRequest cap chunks = chunks.join ∧
    (receiveRequest cap chunks).length = p + 4 + clN := by
  have hmain : receiveRequest cap chunks = chunks.join := by
    unfold receiveRequest
    exact recvLoop_header_exact (cap + 65536) chunks.join p clN hfind hclv hlen hcap
      chunks [] 0 0 hne (by simp) (by simp only [List.length_nil]; omega) rfl
  exact ⟨hmain, by rw [hmain, hlen]⟩

/-- Claim C1 witness. -/
theorem c1_receive_exact_witness :
    ((∀ c ∈ [strBytes "POST / HTTP/1.1\r\ncontent-length: 3\r\n\r\nabc"], c ≠ []) ∧
     findPat crlfcrlf ([strBytes "POST / HTTP/1.1\r\ncontent-length: 3\r\n\r\nabc"]).join
       = some 34 ∧
     extractCL (([strBytes "POST / HTTP/1.1\r\ncontent-length: 3\r\n\r\nabc"]).join.take 34)
       = ((3 : Nat) : Int)) ∧
    (receiveRequest 1000 [strBytes "POST / HTTP/1.1\r\ncontent-length: 3\r\n\r\nabc"] =
       ([strBytes "POST / HTTP/1.1\r\ncontent-length: 3\r\n\r\nabc"]).join ∧
     (receiveRequest 1000 [strBytes "POST / HTTP/1.1\r\ncontent-length: 3\r\n\r\nabc"]).length
       = 34 + 4 + 3) :=
  ⟨⟨by decide, by decide, by decide⟩,
   c1_receive_exact 1000 [strBytes "POST / HTTP/1.1\r\ncontent-length: 3\r\n\r\nabc"]
     34 3 (by decide) (by decide) (by decide) (by decide) (by decide)⟩

end ExpServer
